import Mathlib

/-
Verification of the converter core of davinci-alac-scripts.

This file is a shallow embedding of src/aac2alac.py, the command-line
AAC-to-ALAC converter.  Paths, codec names and command tokens are Lean
strings; the filesystem, the tool lookup and the two subprocess outcomes
(ffprobe and ffmpeg) are supplied by an explicit environment record, so the
whole run becomes a pure function from parsed arguments and environment to
an exit code, an ordered trace of observable effects, and the lines written
to stdout and stderr.  Python's str.lower is modelled with Char.toLower,
which folds the basic latin letters; the codec identifiers the program
compares are ASCII.  JSON parsing of the prober's stdout is not
re-implemented: the environment directly supplies the parsed stream list,
or `none` when json.loads would fail.
-/

namespace Aac2Alac

/-- Python `s.lower()` on the character list of the string (ASCII folding). -/
def strLower (s : String) : String := ⟨s.data.map Char.toLower⟩

/-- Python `s.startswith(p)`. -/
def strStartsWith (s p : String) : Bool := p.data.isPrefixOf s.data

/-- Python `s.endswith(t)`, via reversed character lists. -/
def strEndsWith (s t : String) : Bool := t.data.reverse.isPrefixOf s.data.reverse

/-- Python `x or d` for an optional string: `None` and `""` are falsy. -/
def pyOr (o : Option String) (d : String) : String :=
  match o with
  | none => d
  | some s => if s = "" then d else s

/-- `os.path.basename`: the part after the last slash. -/
def basename (p : String) : String :=
  ⟨(p.data.reverse.takeWhile (fun c => c ≠ '/')).reverse⟩

/-- `os.path.dirname` (posixpath): everything before the last slash, with
trailing slashes stripped unless the head is entirely slashes. -/
def dirname (p : String) : String :=
  let head := (p.data.reverse.dropWhile (fun c => c ≠ '/')).reverse
  if head.all (fun c => c = '/') then ⟨head⟩
  else ⟨(head.reverse.dropWhile (fun c => c = '/')).reverse⟩

/-- Python `<=` on strings, character-list lexicographic by code point. -/
def charListLe : List Char → List Char → Bool
  | [], _ => true
  | _ :: _, [] => false
  | a :: as, b :: bs => if a = b then charListLe as bs else decide (a < b)

/-- Python `<` on strings, character-list lexicographic by code point. -/
def charListLt : List Char → List Char → Bool
  | [], [] => false
  | [], _ :: _ => true
  | _ :: _, [] => false
  | a :: as, b :: bs => if a = b then charListLt as bs else decide (a < b)

/-- Python `a <= b` for strings. -/
def strLe (a b : String) : Bool := charListLe a.data b.data

/-- Python `a < b` for strings. -/
def strLt (a b : String) : Bool := charListLt a.data b.data

/-- Insertion of a string into a sorted list, keeping it sorted. -/
def insertSorted (x : String) : List String → List String
  | [] => [x]
  | y :: ys => if strLe x y then x :: y :: ys else y :: insertSorted x ys

/-- Insertion sort in Python's string order. -/
def sortStrings : List String → List String
  | [] => []
  | x :: xs => insertSorted x (sortStrings xs)

/-- Python `sorted(set(xs))` for strings: de-duplicate, then sort in the
lexicographic (code-point) order.  On a duplicate-free list the sorted
result is canonical, so the choice of sorting algorithm does not matter. -/
def sortedSet (xs : List String) : List String :=
  sortStrings xs.dedup

/-- Exit code for success (line 15). -/
def EXIT_OK : Nat := 0

/-- Exit code for argument errors (line 16). -/
def EXIT_ARGS : Nat := 1

/-- Exit code for missing external tools (line 17). -/
def EXIT_TOOLS : Nat := 2

/-- Exit code for the policy rejection (line 18). -/
def EXIT_NOT_AAC : Nat := 3

/-- Exit code for an ffmpeg failure (line 19). -/
def EXIT_FFMPEG_FAIL : Nat := 4

/-- One entry of ffprobe's streams array, restricted to the two keys `main`
reads. `none` models an absent key (`dict.get` returning `None`). -/
structure StreamDescriptor where
  codec_type : Option String
  codec_name : Option String
deriving DecidableEq, Repr

/-- Outcome of the ffprobe subprocess, run with captured output: its return
code, its stripped stderr, and the result of `json.loads` on its stdout
followed by `.get("streams", [])`: `none` when the stdout is not parseable
JSON (`json.loads` raises, with message `parseErrMsg`), otherwise the stream
list.  The unused format dictionary is omitted. -/
structure ProbeOutcome where
  returncode : Nat
  stderrStripped : String
  parsed : Option (List StreamDescriptor)
  parseErrMsg : String
deriving Repr

/-- The ambient environment of one invocation: `os.path.isfile`,
`os.path.exists`, `shutil.which`, the ffprobe outcome, the fresh scratch
directory name `tempfile.mkdtemp` returns, and the ffmpeg outcome. -/
structure Env where
  isfile : String → Bool
  pathExists : String → Bool
  whichLookup : String → Option String
  probe : ProbeOutcome
  tmp_dir : String
  engineReturncode : Nat
  engineStdout : String
  engineStderr : String

/-- The parsed command-line arguments (argparse configuration, lines 85-93). -/
structure Args where
  input : String
  output : String
  ffmpeg : Option String
  ffprobe : Option String
  no_overwrite : Bool
  threads : Option Int
  movflags : Option String

/-- The option strings registered with argparse in `main` (lines 85-93),
together with the automatic help options argparse adds. -/
def argOptionStrings : List String :=
  ["-h", "--help", "--ffmpeg", "--ffprobe", "--no-overwrite",
   "--threads", "--movflags"]

/-- `which_or` (lines 21-24): use the override when it is truthy and names an
existing file, otherwise fall back to `shutil.which(fallback)`. -/
def which_or (isfile : String → Bool) (whichLookup : String → Option String)
    (path : Option String) (fallback : String) : Option String :=
  match path with
  | some p => if p ≠ "" && isfile p then some p else whichLookup fallback
  | none => whichLookup fallback

/-- `ffprobe_streams` (lines 45-58): error when the prober exits non-zero
(with its stderr) or when its stdout is not parseable JSON (with the parse
error's message); otherwise the stream list. -/
def ffprobe_streams (probe : ProbeOutcome) : Except String (List StreamDescriptor) :=
  if probe.returncode ≠ 0 then
    Except.error ("ffprobe failed: " ++ probe.stderrStripped)
  else
    match probe.parsed with
    | none => Except.error probe.parseErrMsg
    | some streams => Except.ok streams

/-- The `-threads` arguments (lines 62-63); Python `if threads:` skips both
`None` and `0`. -/
def threadsArgs : Option Int → List String
  | some t => if t ≠ 0 then ["-threads", toString t] else []
  | none => []

/-- The `-movflags` arguments (lines 73-76): default `+faststart` when the
option is absent; Python `if movflags:` skips the empty string. -/
def movflagsArgs (movflags : Option String) : List String :=
  let mf := match movflags with
    | none => "+faststart"
    | some s => s
  if mf ≠ "" then ["-movflags", mf] else []

/-- The stream-mapping block of the command (lines 67-71): video, subtitle,
data and timecode copied, audio re-encoded to ALAC, every selector optional. -/
def mapBlock : List String :=
  ["-map", "0:v?", "-c:v", "copy",
   "-map", "0:a?", "-c:a", "alac",
   "-map", "0:s?", "-c:s", "copy",
   "-map", "0:d?", "-c:d", "copy",
   "-map", "0:t?", "-c:t", "copy"]

/-- Output-name normalization (lines 78-79): append `.mov` unless the name
already ends with it case-insensitively. -/
def normalizeOut (outfile : String) : String :=
  if strEndsWith (strLower outfile) ".mov" then outfile else outfile ++ ".mov"

/-- `build_ffmpeg_cmd` (lines 60-82): the full command token list and the
normalized output path. -/
def build_ffmpeg_cmd (ffmpeg_bin infile outfile : String)
    (threads : Option Int) (movflags : Option String) : List String × String :=
  let cmd := [ffmpeg_bin, "-y", "-hide_banner", "-nostdin"]
  let cmd := cmd ++ threadsArgs threads
  let cmd := cmd ++ ["-i", infile]
  let cmd := cmd ++ mapBlock
  let cmd := cmd ++ movflagsArgs movflags
  let outfile := normalizeOut outfile
  (cmd ++ [outfile], outfile)

/-- `shlex_join_safe` (lines 37-43): the command echoed as one line.  Shell
quoting of tokens that would need it is not modelled; no claim depends on
the quoting of the echoed line. -/
def shlex_join_safe (parts : List String) : String :=
  String.intercalate " " parts

/-- The observable effects of `main`, in program order: subprocess launches
and filesystem mutations. -/
inductive Ev where
  | launchProber
  | mkdtemp (dir : String)
  | launchEngine (cmd : List String)
  | makedirs (dir : String)
  | removeDest (path : String)
  | moveTmpToDest (src dest : String)
  | rmtreeTmp (dir : String)
deriving DecidableEq, Repr

/-- The result of one run of `main`: process exit code, the ordered effect
trace, and the lines written to stdout and stderr. -/
structure RunResult where
  exitCode : Nat
  events : List Ev
  stdoutLines : List String
  stderrLines : List String
deriving DecidableEq, Repr

/-- The audio-stream subset (line 117). -/
def audioStreams (streams : List StreamDescriptor) : List StreamDescriptor :=
  streams.filter (fun s => s.codec_type == some "audio")

/-- The audio streams whose codec is not `aac` case-insensitively (line 122);
an absent codec name is read as the empty string. -/
def nonAacStreams (streams : List StreamDescriptor) : List StreamDescriptor :=
  (audioStreams streams).filter (fun s => strLower (pyOr s.codec_name "") != "aac")

/-- The enumeration in the rejection diagnostic (line 124): the offending
codec names (`?` for an absent name), de-duplicated and sorted. -/
def offendingNames (streams : List StreamDescriptor) : List String :=
  sortedSet ((nonAacStreams streams).map (fun s => pyOr s.codec_name "?"))

/-- The rejection diagnostic line (line 125). -/
def rejectLine (streams : List StreamDescriptor) : String :=
  "Rejected: non-AAC audio tracks are present (" ++
    String.intercalate ", " (offendingNames streams) ++ ")."

/-- The success summary line (lines 152-154). -/
def doneLine (real_out : String) (v_count a_count : Nat) : String :=
  "Done: " ++ basename real_out ++ "  |  video: " ++ toString v_count ++
    " (copy), audio: " ++ toString a_count ++ " (ALAC)"

/-- Lines 117-155 of `main`: the policy gate, command construction, scratch
setup, engine run and finalize, reached after tool resolution, the two
argument checks and a successful probe. -/
def gateStage (args : Args) (env : Env) (ffmpeg_bin : String)
    (streams : List StreamDescriptor) : RunResult :=
  if (audioStreams streams).isEmpty then
    ⟨EXIT_NOT_AAC, [Ev.launchProber], [], ["Error: no audio tracks found."]⟩
  else if !(nonAacStreams streams).isEmpty then
    ⟨EXIT_NOT_AAC, [Ev.launchProber], [], [rejectLine streams]⟩
  else
    let built := build_ffmpeg_cmd ffmpeg_bin args.input args.output
      args.threads args.movflags
    let real_out := built.2
    let tmp_out := env.tmp_dir ++ "/" ++ basename real_out
    let cmd := built.1.dropLast ++ [tmp_out]
    let echo := ">> " ++ shlex_join_safe cmd
    if env.engineReturncode ≠ 0 then
      ⟨EXIT_FFMPEG_FAIL,
       [Ev.launchProber, Ev.mkdtemp env.tmp_dir, Ev.launchEngine cmd],
       [echo],
       (if env.engineStdout ≠ "" then [env.engineStdout] else []) ++
         (if env.engineStderr ≠ "" then [env.engineStderr] else [])⟩
    else
      ⟨EXIT_OK,
       [Ev.launchProber, Ev.mkdtemp env.tmp_dir, Ev.launchEngine cmd,
        Ev.makedirs (if dirname real_out = "" then "." else dirname real_out)] ++
         (if env.pathExists real_out then [Ev.removeDest real_out] else []) ++
         [Ev.moveTmpToDest tmp_out real_out, Ev.rmtreeTmp env.tmp_dir],
       [echo,
        doneLine real_out
          (streams.filter (fun s => s.codec_type == some "video")).length
          (audioStreams streams).length],
       []⟩

/-- `main` (lines 84-155) after argument parsing, as a function of the parsed
arguments and the environment. -/
def mainRun (args : Args) (env : Env) : RunResult :=
  match which_or env.isfile env.whichLookup args.ffmpeg "ffmpeg",
        which_or env.isfile env.whichLookup args.ffprobe "ffprobe" with
  | some ffmpeg_bin, some _ffprobe_bin =>
    if !env.isfile args.input then
      ⟨EXIT_ARGS, [], [], ["Error: input file not found: " ++ args.input]⟩
    else if args.no_overwrite && env.pathExists args.output then
      ⟨EXIT_ARGS, [], [], ["Error: output file already exists: " ++ args.output]⟩
    else
      match ffprobe_streams env.probe with
      | Except.error e =>
          ⟨EXIT_TOOLS, [Ev.launchProber], [], ["ffprobe error: " ++ e]⟩
      | Except.ok streams => gateStage args env ffmpeg_bin streams
  | _, _ => ⟨EXIT_TOOLS, [], [], ["Error: ffmpeg/ffprobe not found."]⟩

/-- The spec's acceptance condition: at least one audio stream, and every
audio stream's codec name equal to `aac` under the case-insensitive compare. -/
def specAccept (streams : List StreamDescriptor) : Prop :=
  (∃ s ∈ streams, s.codec_type = some "audio") ∧
    ∀ s ∈ streams, s.codec_type = some "audio" →
      strLower (pyOr s.codec_name "") = "aac"

instance (streams : List StreamDescriptor) : Decidable (specAccept streams) := by
  unfold specAccept
  exact instDecidableAnd

/-- Whether an effect is the launch of the transcode engine. -/
def isEngineLaunch : Ev → Bool
  | Ev.launchEngine _ => true
  | _ => false

/-- Whether an effect writes to (removes or replaces) the destination path. -/
def touchesDest : Ev → Bool
  | Ev.removeDest _ => true
  | Ev.moveTmpToDest _ _ => true
  | _ => false

/-- Whether an effect deletes the scratch directory. -/
def isRmtree : Ev → Bool
  | Ev.rmtreeTmp _ => true
  | _ => false

theorem charListLe_total (as bs : List Char) :
    charListLe as bs = true ∨ charListLe bs as = true := by
  induction as generalizing bs with
  | nil => left; rfl
  | cons a as ih =>
    cases bs with
    | nil => right; rfl
    | cons b bs =>
      by_cases hab : a = b
      · subst hab
        simpa [charListLe] using ih bs
      · rcases lt_or_gt_of_ne hab with h | h
        · left; simp [charListLe, hab, h]
        · right; simp [charListLe, Ne.symm hab, h]

theorem charListLe_trans {as bs cs : List Char}
    (h₁ : charListLe as bs = true) (h₂ : charListLe bs cs = true) :
    charListLe as cs = true := by
  induction as generalizing bs cs with
  | nil => rfl
  | cons a as ih =>
    cases bs with
    | nil => simp [charListLe] at h₁
    | cons b bs =>
      cases cs with
      | nil => simp [charListLe] at h₂
      | cons c cs =>
        by_cases hab : a = b <;> by_cases hbc : b = c
        · subst hab; subst hbc
          simp only [charListLe, if_pos rfl] at h₁ h₂ ⊢
          exact ih h₁ h₂
        · subst hab
          simp only [charListLe, if_pos rfl, if_neg hbc] at h₂ ⊢
          exact h₂
        · subst hbc
          simp only [charListLe, if_neg hab, if_pos rfl] at h₁ ⊢
          exact h₁
        · simp only [charListLe, if_neg hab, if_neg hbc, decide_eq_true_eq] at h₁ h₂
          have hac : a < c := lt_trans h₁ h₂
          simp [charListLe, ne_of_lt hac, hac]

theorem charListLt_of_le_of_ne {as bs : List Char}
    (h : charListLe as bs = true) (hne : as ≠ bs) : charListLt as bs = true := by
  induction as generalizing bs with
  | nil =>
    cases bs with
    | nil => exact absurd rfl hne
    | cons b bs => rfl
  | cons a as ih =>
    cases bs with
    | nil => simp [charListLe] at h
    | cons b bs =>
      by_cases hab : a = b
      · subst hab
        simp only [charListLe, if_pos rfl] at h
        have : as ≠ bs := fun hh => hne (by rw [hh])
        simp only [charListLt, if_pos rfl]
        exact ih h this
      · simp only [charListLe, if_neg hab] at h
        simp only [charListLt, if_neg hab]
        exact h

theorem strLe_total (a b : String) : strLe a b = true ∨ strLe b a = true :=
  charListLe_total a.data b.data

theorem strLe_trans {a b c : String} (h₁ : strLe a b = true)
    (h₂ : strLe b c = true) : strLe a c = true :=
  charListLe_trans h₁ h₂

theorem strLt_of_le_of_ne {a b : String} (h : strLe a b = true) (hne : a ≠ b) :
    strLt a b = true := by
  refine charListLt_of_le_of_ne h fun hd => hne ?_
  exact String.ext hd

theorem perm_insertSorted (x : String) (l : List String) :
    List.Perm (insertSorted x l) (x :: l) := by
  induction l with
  | nil => exact List.Perm.refl _
  | cons y ys ih =>
    by_cases h : strLe x y = true
    · simp only [insertSorted, if_pos h]
      exact List.Perm.refl _
    · simp only [insertSorted, if_neg h]
      exact ((ih.cons y).trans (List.Perm.swap x y ys))

theorem perm_sortStrings (l : List String) : List.Perm (sortStrings l) l := by
  induction l with
  | nil => exact List.Perm.refl _
  | cons x xs ih => exact (perm_insertSorted x (sortStrings xs)).trans (ih.cons x)

theorem pairwise_le_insertSorted (x : String) {l : List String}
    (h : l.Pairwise (fun a b => strLe a b = true)) :
    (insertSorted x l).Pairwise (fun a b => strLe a b = true) := by
  induction l with
  | nil => simp [insertSorted]
  | cons y ys ih =>
    obtain ⟨hy, hys⟩ := List.pairwise_cons.mp h
    by_cases hxy : strLe x y = true
    · simp only [insertSorted, if_pos hxy]
      refine List.Pairwise.cons ?_ (List.Pairwise.cons hy hys)
      intro a ha
      rcases List.mem_cons.mp ha with rfl | ha
      · exact hxy
      · exact strLe_trans hxy (hy a ha)
    · have hyx : strLe y x = true := (strLe_total x y).resolve_left hxy
      simp only [insertSorted, if_neg hxy]
      refine List.Pairwise.cons ?_ (ih hys)
      intro a ha
      rcases List.mem_cons.mp ((perm_insertSorted x ys).mem_iff.mp ha) with rfl | ha
      · exact hyx
      · exact hy a ha

theorem pairwise_le_sortStrings (l : List String) :
    (sortStrings l).Pairwise (fun a b => strLe a b = true) := by
  induction l with
  | nil => exact List.Pairwise.nil
  | cons x xs ih => exact pairwise_le_insertSorted x ih

theorem mem_sortedSet {a : String} {xs : List String} :
    a ∈ sortedSet xs ↔ a ∈ xs := by
  rw [sortedSet, (perm_sortStrings xs.dedup).mem_iff]
  exact List.mem_dedup

theorem nodup_sortedSet (xs : List String) : (sortedSet xs).Nodup :=
  (perm_sortStrings xs.dedup).symm.nodup (List.nodup_dedup xs)

theorem pairwise_lt_sortedSet (xs : List String) :
    (sortedSet xs).Pairwise (fun a b => strLt a b = true) := by
  have hle := pairwise_le_sortStrings xs.dedup
  have hne : (sortedSet xs).Pairwise (fun a b => a ≠ b) := nodup_sortedSet xs
  exact (hle.and hne).imp fun h => strLt_of_le_of_ne h.1 h.2

theorem mainRun_some_some {args : Args} {env : Env} {fb pb : String}
    (hf : which_or env.isfile env.whichLookup args.ffmpeg "ffmpeg" = some fb)
    (hp : which_or env.isfile env.whichLookup args.ffprobe "ffprobe" = some pb) :
    mainRun args env =
      if (!env.isfile args.input) = true then
        ⟨EXIT_ARGS, [], [], ["Error: input file not found: " ++ args.input]⟩
      else if (args.no_overwrite && env.pathExists args.output) = true then
        ⟨EXIT_ARGS, [], [],
         ["Error: output file already exists: " ++ args.output]⟩
      else
        match ffprobe_streams env.probe with
        | Except.error e =>
            ⟨EXIT_TOOLS, [Ev.launchProber], [], ["ffprobe error: " ++ e]⟩
        | Except.ok streams => gateStage args env fb streams := by
  unfold mainRun
  rw [hf, hp]

theorem mainRun_eq_gateStage {args : Args} {env : Env} {fb pb : String}
    {streams : List StreamDescriptor}
    (hf : which_or env.isfile env.whichLookup args.ffmpeg "ffmpeg" = some fb)
    (hp : which_or env.isfile env.whichLookup args.ffprobe "ffprobe" = some pb)
    (hin : env.isfile args.input = true)
    (hov : (args.no_overwrite && env.pathExists args.output) = false)
    (hpr : ffprobe_streams env.probe = Except.ok streams) :
    mainRun args env = gateStage args env fb streams := by
  unfold mainRun
  rw [hf, hp, hpr]
  simp [hin, hov]

theorem specAccept_iff (streams : List StreamDescriptor) :
    specAccept streams ↔
      (audioStreams streams ≠ [] ∧ nonAacStreams streams = []) := by
  constructor
  · rintro ⟨⟨s, hs, hty⟩, hall⟩
    refine ⟨?_, ?_⟩
    · intro hemp
      have hmem : s ∈ audioStreams streams :=
        List.mem_filter.mpr ⟨hs, by simp [hty]⟩
      rw [hemp] at hmem
      exact (List.not_mem_nil s) hmem
    · rw [nonAacStreams, List.filter_eq_nil_iff]
      intro a ha
      obtain ⟨hmem, hty'⟩ := List.mem_filter.mp ha
      have heq : strLower (pyOr a.codec_name "") = "aac" :=
        hall a hmem (by simpa using hty')
      simp [heq]
  · rintro ⟨hne, hemp⟩
    obtain ⟨s, hmem⟩ := List.exists_mem_of_ne_nil _ hne
    obtain ⟨hs, hty⟩ := List.mem_filter.mp hmem
    refine ⟨⟨s, hs, by simpa using hty⟩, ?_⟩
    intro a ha hty'
    have hmema : a ∈ audioStreams streams :=
      List.mem_filter.mpr ⟨ha, by simp [hty']⟩
    rw [nonAacStreams, List.filter_eq_nil_iff] at hemp
    have := hemp a hmema
    simpa using this

theorem listPrefixOf_append_self (l t : List Char) : l.isPrefixOf (l ++ t) = true := by
  induction l with
  | nil => simp [List.isPrefixOf]
  | cons a as ih => simp [List.isPrefixOf, ih]

theorem strEndsWith_append (s t : String) : strEndsWith (s ++ t) t = true := by
  unfold strEndsWith
  rw [String.data_append, List.reverse_append]
  exact listPrefixOf_append_self t.data.reverse s.data.reverse

theorem strLower_append (s t : String) :
    strLower (s ++ t) = strLower s ++ strLower t := by
  apply String.ext
  simp [strLower, String.data_append]

theorem normalizeOut_mov (o : String) :
    strEndsWith (strLower (normalizeOut o)) ".mov" = true := by
  unfold normalizeOut
  by_cases h : strEndsWith (strLower o) ".mov" = true
  · rw [if_pos h]; exact h
  · rw [if_neg h, strLower_append]
    have hmov : strLower ".mov" = ".mov" := by decide
    rw [hmov]
    exact strEndsWith_append (strLower o) ".mov"

/-- Whether a destination-writing effect's path carries the container
extension; effects that do not write the destination pass trivially. -/
def destExtOk : Ev → Bool
  | Ev.removeDest p => strEndsWith (strLower p) ".mov"
  | Ev.moveTmpToDest _ d => strEndsWith (strLower d) ".mov"
  | _ => true

/-- An AAC audio stream as probed. -/
def cStreamAac : StreamDescriptor := ⟨some "audio", some "aac"⟩

/-- An MP3 audio stream as probed. -/
def cStreamMp3 : StreamDescriptor := ⟨some "audio", some "mp3"⟩

/-- A plain invocation: existing input, a `.mov` output name, no options. -/
def cArgsPlain : Args := ⟨"in.mp4", "out.mov", none, none, false, none, none⟩

/-- A forbid-overwrite invocation whose output name lacks the extension. -/
def cArgsNoOv : Args := ⟨"in.mp4", "out", none, none, true, none, none⟩

/-- A forbid-overwrite invocation with a `.mov` output name. -/
def cArgsNoOvMov : Args := ⟨"in.mp4", "out.mov", none, none, true, none, none⟩

/-- An invocation with tool-path overrides that name no existing file. -/
def cArgsOverride : Args :=
  ⟨"in.mp4", "out.mov", some "/bad/ffmpeg", some "/bad/ffprobe", false, none, none⟩

/-- Every path is a file, no destination exists, tools resolve by name, the
probe finds one AAC audio stream, and the engine fails with code 1. -/
def cEnvEngineFail : Env :=
  ⟨fun _ => true, fun _ => false, fun t => some t,
   ⟨0, "", some [cStreamAac], ""⟩, "/tmp/aac2alac_x", 1, "boom", ""⟩

/-- As `cEnvEngineFail`, but the engine succeeds. -/
def cEnvSuccess : Env :=
  ⟨fun _ => true, fun _ => false, fun t => some t,
   ⟨0, "", some [cStreamAac], ""⟩, "/tmp/aac2alac_x", 0, "", ""⟩

/-- The engine succeeds and a file already exists at `out.mov`. -/
def cEnvDestMov : Env :=
  ⟨fun _ => true, fun p => p == "out.mov", fun t => some t,
   ⟨0, "", some [cStreamAac], ""⟩, "/tmp/aac2alac_x", 0, "", ""⟩

/-- The probe parses, but one audio stream is MP3. -/
def cEnvMp3 : Env :=
  ⟨fun _ => true, fun _ => false, fun t => some t,
   ⟨0, "", some [cStreamAac, cStreamMp3], ""⟩, "/tmp/aac2alac_x", 0, "", ""⟩

/-- The prober exits non-zero. -/
def cEnvProbeFail : Env :=
  ⟨fun _ => true, fun _ => false, fun t => some t,
   ⟨1, "bad input", none, ""⟩, "/tmp/aac2alac_x", 0, "", ""⟩

/-- Only the input file exists; the system lookup finds no tools. -/
def cEnvNoTools : Env :=
  ⟨fun p => p == "in.mp4", fun _ => false, fun _ => none,
   ⟨0, "", some [cStreamAac], ""⟩, "/tmp/aac2alac_x", 0, "", ""⟩

/-- The trace of every gate-stage outcome is non-empty: the prober launch is
always recorded before it. -/
theorem gateStage_events_ne (args : Args) (env : Env) (fb : String)
    (streams : List StreamDescriptor) :
    (gateStage args env fb streams).events ≠ [] := by
  unfold gateStage
  split
  · simp
  · split
    · simp
    · split
      · simp
      · simp

/-- Claim C4: when overwriting is forbidden and a file already exists at the
requested destination path, the process exits with code 1 (`EXIT_ARGS`) and
no subprocess is launched: the effect trace is empty. -/
theorem c4_no_overwrite_precheck (args : Args) (env : Env) (fb pb : String)
    (hf : which_or env.isfile env.whichLookup args.ffmpeg "ffmpeg" = some fb)
    (hp : which_or env.isfile env.whichLookup args.ffprobe "ffprobe" = some pb)
    (hno : args.no_overwrite = true)
    (hex : env.pathExists args.output = true) :
    (mainRun args env).exitCode = EXIT_ARGS ∧ EXIT_ARGS = 1 ∧
      (mainRun args env).events = [] := by
  unfold mainRun
  rw [hf, hp]
  by_cases hin : env.isfile args.input
  · simp [hin, hno, hex, EXIT_ARGS]
  · simp [hin, EXIT_ARGS]

/-- Witness for C4 at a concrete input: forbid-overwrite and `out.mov`
already existing. -/
theorem c4_no_overwrite_precheck_witness :
    (mainRun cArgsNoOvMov cEnvDestMov).exitCode = EXIT_ARGS ∧ EXIT_ARGS = 1 ∧
      (mainRun cArgsNoOvMov cEnvDestMov).events = [] :=
  c4_no_overwrite_precheck cArgsNoOvMov cEnvDestMov "ffmpeg" "ffprobe"
    (by decide) (by decide) (by decide) (by decide)

/-- Claim C8: the built engine command always contains the fixed mapping
block — video, subtitle, data and timecode as `copy`, audio as `alac` — with
every stream selector suffixed `?` (optional), regardless of the input. -/
theorem c8_stream_mapping (fb infile outfile : String)
    (threads : Option Int) (movflags : Option String) :
    (∃ pre post, (build_ffmpeg_cmd fb infile outfile threads movflags).1 =
        pre ++ mapBlock ++ post) ∧
      mapBlock = ["-map", "0:v?", "-c:v", "copy", "-map", "0:a?", "-c:a", "alac",
        "-map", "0:s?", "-c:s", "copy", "-map", "0:d?", "-c:d", "copy",
        "-map", "0:t?", "-c:t", "copy"] ∧
      (["0:v?", "0:a?", "0:s?", "0:d?", "0:t?"].all
        (fun sp => strEndsWith sp "?")) = true := by
  refine ⟨⟨[fb, "-y", "-hide_banner", "-nostdin"] ++ threadsArgs threads ++
      ["-i", infile], movflagsArgs movflags ++ [normalizeOut outfile], ?_⟩,
    rfl, by decide⟩
  simp [build_ffmpeg_cmd, List.append_assoc]

/-- Claim C3 (code bug): no `--progress` option is registered with the
argument parser, and a successful run writes only the command echo and the
`Done:` summary to stdout — no `PROGRESS` line and no `DONE <path>` line. -/
theorem c3_no_progress_protocol :
    argOptionStrings.contains "--progress" = false ∧
      (mainRun cArgsPlain cEnvSuccess).exitCode = EXIT_OK ∧
      ((mainRun cArgsPlain cEnvSuccess).stdoutLines.all
        (fun l => !strStartsWith l "PROGRESS " && !strStartsWith l "DONE ")) = true := by
  decide

/-- Claim C2 counterexample: at a concrete input whose engine run fails with
code 1, the process exits 4 but the effect trace contains no scratch-area
removal: the temporary artifact is not deleted, contrary to the claim. -/
theorem c2_counterexample :
    (mainRun cArgsPlain cEnvEngineFail).exitCode = 4 ∧
      ((mainRun cArgsPlain cEnvEngineFail).events.any isRmtree) = false := by
  decide

/-- Claim C6 counterexample: under forbid-overwrite with requested output
`out` (no extension) and an existing file at the normalized path `out.mov`,
the finalize step still removes that file: the removal branch is taken. -/
theorem c6_counterexample :
    cArgsNoOv.no_overwrite = true ∧
      (Ev.removeDest "out.mov") ∈ (mainRun cArgsNoOv cEnvDestMov).events := by
  decide

/-- Claim C1: with tools resolved, an existing input, the overwrite check
passed and a successful probe, the run launches the transcode engine iff the
probed list has at least one audio stream and every audio stream's codec
name is `aac` under the case-insensitive compare; otherwise it exits with
code 3 (`EXIT_NOT_AAC`) without ever launching the engine. -/
theorem c1_policy_gate (args : Args) (env : Env) (fb pb : String)
    (streams : List StreamDescriptor)
    (hf : which_or env.isfile env.whichLookup args.ffmpeg "ffmpeg" = some fb)
    (hp : which_or env.isfile env.whichLookup args.ffprobe "ffprobe" = some pb)
    (hin : env.isfile args.input = true)
    (hov : (args.no_overwrite && env.pathExists args.output) = false)
    (hpr : ffprobe_streams env.probe = Except.ok streams) :
    ((mainRun args env).events.any isEngineLaunch = true ↔ specAccept streams) ∧
      (¬ specAccept streams →
        (mainRun args env).exitCode = EXIT_NOT_AAC ∧
          (mainRun args env).events.any isEngineLaunch = false) := by
  rw [mainRun_eq_gateStage hf hp hin hov hpr, specAccept_iff]
  by_cases hA : audioStreams streams = []
  · simp [gateStage, List.isEmpty_iff, hA, isEngineLaunch]
  · by_cases hN : nonAacStreams streams = []
    · simp only [gateStage, List.isEmpty_iff, hA, hN, if_neg, if_pos]
      by_cases hrc : env.engineReturncode ≠ 0 <;>
        simp [hA, hN, hrc, isEngineLaunch]
    · simp [gateStage, List.isEmpty_iff, hA, hN, isEngineLaunch]

/-- Witness for C1 at a concrete accepted input: one AAC audio stream. -/
theorem c1_policy_gate_witness :
    ((mainRun cArgsPlain cEnvSuccess).events.any isEngineLaunch = true ↔
        specAccept [cStreamAac]) ∧
      (¬ specAccept [cStreamAac] →
        (mainRun cArgsPlain cEnvSuccess).exitCode = EXIT_NOT_AAC ∧
          (mainRun cArgsPlain cEnvSuccess).events.any isEngineLaunch = false) :=
  c1_policy_gate cArgsPlain cEnvSuccess "ffmpeg" "ffprobe" [cStreamAac]
    (by decide) (by decide) (by decide) (by decide) (by rfl)

/-- Claim C2, amended: when the engine exits non-zero the process exits with
code 4 (`EXIT_FFMPEG_FAIL`) and no effect touches the destination path, but
the scratch directory is NOT removed: no cleanup runs on this path. -/
theorem c2_engine_failure (args : Args) (env : Env) (fb pb : String)
    (streams : List StreamDescriptor)
    (hf : which_or env.isfile env.whichLookup args.ffmpeg "ffmpeg" = some fb)
    (hp : which_or env.isfile env.whichLookup args.ffprobe "ffprobe" = some pb)
    (hin : env.isfile args.input = true)
    (hov : (args.no_overwrite && env.pathExists args.output) = false)
    (hpr : ffprobe_streams env.probe = Except.ok streams)
    (hacc : specAccept streams)
    (hrc : env.engineReturncode ≠ 0) :
    (mainRun args env).exitCode = EXIT_FFMPEG_FAIL ∧
      ((mainRun args env).events.all (fun e => !touchesDest e)) = true ∧
      ((mainRun args env).events.any isRmtree) = false := by
  rw [mainRun_eq_gateStage hf hp hin hov hpr]
  rw [specAccept_iff] at hacc
  obtain ⟨hA, hN⟩ := hacc
  simp [gateStage, List.isEmpty_iff, hA, hN, hrc, touchesDest, isRmtree]

/-- Witness for C2's amended statement at the concrete failing-engine run. -/
theorem c2_engine_failure_witness :
    (mainRun cArgsPlain cEnvEngineFail).exitCode = EXIT_FFMPEG_FAIL ∧
      ((mainRun cArgsPlain cEnvEngineFail).events.all
        (fun e => !touchesDest e)) = true ∧
      ((mainRun cArgsPlain cEnvEngineFail).events.any isRmtree) = false :=
  c2_engine_failure cArgsPlain cEnvEngineFail "ffmpeg" "ffprobe" [cStreamAac]
    (by decide) (by decide) (by decide) (by decide) (by rfl) (by decide)
    (by decide)

/-- Claim C5: when the gate rejects because a non-AAC audio codec is
present, the process exits 3, the single stderr line is the rejection
diagnostic, and the codec names it enumerates are strictly sorted (hence
each distinct offending name appears exactly once) and are exactly the
offending names. -/
theorem c5_reject_diagnostic (args : Args) (env : Env) (fb pb : String)
    (streams : List StreamDescriptor)
    (hf : which_or env.isfile env.whichLookup args.ffmpeg "ffmpeg" = some fb)
    (hp : which_or env.isfile env.whichLookup args.ffprobe "ffprobe" = some pb)
    (hin : env.isfile args.input = true)
    (hov : (args.no_overwrite && env.pathExists args.output) = false)
    (hpr : ffprobe_streams env.probe = Except.ok streams)
    (hnon : nonAacStreams streams ≠ []) :
    (mainRun args env).exitCode = EXIT_NOT_AAC ∧
      (mainRun args env).stderrLines = [rejectLine streams] ∧
      (offendingNames streams).Pairwise (fun a b => strLt a b = true) ∧
      (offendingNames streams).Nodup ∧
      (∀ n, n ∈ offendingNames streams ↔
        n ∈ (nonAacStreams streams).map (fun s => pyOr s.codec_name "?")) := by
  rw [mainRun_eq_gateStage hf hp hin hov hpr]
  have hA : audioStreams streams ≠ [] := by
    intro h
    apply hnon
    rw [nonAacStreams, h]
    rfl
  refine ⟨?_, ?_, pairwise_lt_sortedSet _, nodup_sortedSet _, fun n => ?_⟩
  · simp [gateStage, List.isEmpty_iff, hA, hnon]
  · simp [gateStage, List.isEmpty_iff, hA, hnon]
  · simp only [offendingNames]
    exact mem_sortedSet

/-- Witness for C5 at a probe with one AAC and one MP3 audio stream. -/
theorem c5_reject_diagnostic_witness :
    (mainRun cArgsPlain cEnvMp3).exitCode = EXIT_NOT_AAC ∧
      (mainRun cArgsPlain cEnvMp3).stderrLines =
        [rejectLine [cStreamAac, cStreamMp3]] ∧
      (offendingNames [cStreamAac, cStreamMp3]).Pairwise
        (fun a b => strLt a b = true) ∧
      (offendingNames [cStreamAac, cStreamMp3]).Nodup ∧
      (∀ n, n ∈ offendingNames [cStreamAac, cStreamMp3] ↔
        n ∈ (nonAacStreams [cStreamAac, cStreamMp3]).map
          (fun s => pyOr s.codec_name "?")) :=
  c5_reject_diagnostic cArgsPlain cEnvMp3 "ffmpeg" "ffprobe"
    [cStreamAac, cStreamMp3]
    (by decide) (by decide) (by decide) (by decide) (by rfl) (by decide)

/-- Claim C6, amended: in the finalize step after engine success, a
pre-existing file at the normalized destination path is removed exactly when
such a file exists there — the overwrite policy is not re-checked.  The
earlier forbid-overwrite check guards only the requested, un-normalized
path, so the policy does not prevent this removal. -/
theorem c6_finalize_remove (args : Args) (env : Env) (fb pb : String)
    (streams : List StreamDescriptor)
    (hf : which_or env.isfile env.whichLookup args.ffmpeg "ffmpeg" = some fb)
    (hp : which_or env.isfile env.whichLookup args.ffprobe "ffprobe" = some pb)
    (hin : env.isfile args.input = true)
    (hov : (args.no_overwrite && env.pathExists args.output) = false)
    (hpr : ffprobe_streams env.probe = Except.ok streams)
    (hacc : specAccept streams)
    (hrc : env.engineReturncode = 0) :
    ((Ev.removeDest (normalizeOut args.output)) ∈ (mainRun args env).events ↔
      env.pathExists (normalizeOut args.output) = true) := by
  rw [mainRun_eq_gateStage hf hp hin hov hpr]
  rw [specAccept_iff] at hacc
  obtain ⟨hA, hN⟩ := hacc
  by_cases hex : env.pathExists (normalizeOut args.output) = true <;>
    simp [gateStage, List.isEmpty_iff, hA, hN, hrc, build_ffmpeg_cmd, hex]

/-- Witness for C6's amended statement: forbid-overwrite, requested output
`out`, existing file at `out.mov`; the removal branch is taken. -/
theorem c6_finalize_remove_witness :
    ((Ev.removeDest (normalizeOut cArgsNoOv.output)) ∈
        (mainRun cArgsNoOv cEnvDestMov).events ↔
      cEnvDestMov.pathExists (normalizeOut cArgsNoOv.output) = true) :=
  c6_finalize_remove cArgsNoOv cEnvDestMov "ffmpeg" "ffprobe" [cStreamAac]
    (by decide) (by decide) (by decide) (by decide) (by rfl) (by decide)
    (by decide)

/-- Claim C9: with both tools resolved and the run reaching the probe, a
prober that exits non-zero or returns unparsable output makes the process
print the probe diagnostic to stderr and exit with `EXIT_TOOLS` — the same
code 2 that is reserved for missing external tools — after launching only
the prober. -/
theorem c9_probe_failure (args : Args) (env : Env) (fb pb : String)
    (hf : which_or env.isfile env.whichLookup args.ffmpeg "ffmpeg" = some fb)
    (hp : which_or env.isfile env.whichLookup args.ffprobe "ffprobe" = some pb)
    (hin : env.isfile args.input = true)
    (hov : (args.no_overwrite && env.pathExists args.output) = false)
    (hbad : env.probe.returncode ≠ 0 ∨ env.probe.parsed = none) :
    (mainRun args env).exitCode = EXIT_TOOLS ∧ EXIT_TOOLS = 2 ∧
      (∃ msg, (mainRun args env).stderrLines = ["ffprobe error: " ++ msg]) ∧
      (mainRun args env).events = [Ev.launchProber] := by
  have hpe : ∃ e, ffprobe_streams env.probe = Except.error e := by
    by_cases h0 : env.probe.returncode ≠ 0
    · refine ⟨"ffprobe failed: " ++ env.probe.stderrStripped, ?_⟩
      unfold ffprobe_streams
      rw [if_pos h0]
    · rcases hbad with h | h
      · exact absurd h h0
      · refine ⟨env.probe.parseErrMsg, ?_⟩
        unfold ffprobe_streams
        rw [if_neg h0, h]
  obtain ⟨e, hpe⟩ := hpe
  unfold mainRun
  rw [hf, hp, hpe]
  refine ⟨by simp [hin, hov], rfl, ⟨e, by simp [hin, hov]⟩, by simp [hin, hov]⟩

/-- Witness for C9 at a concrete prober failure (return code 1). -/
theorem c9_probe_failure_witness :
    (mainRun cArgsPlain cEnvProbeFail).exitCode = EXIT_TOOLS ∧ EXIT_TOOLS = 2 ∧
      (∃ msg, (mainRun cArgsPlain cEnvProbeFail).stderrLines =
        ["ffprobe error: " ++ msg]) ∧
      (mainRun cArgsPlain cEnvProbeFail).events = [Ev.launchProber] :=
  c9_probe_failure cArgsPlain cEnvProbeFail "ffmpeg" "ffprobe"
    (by decide) (by decide) (by decide) (by decide) (Or.inl (by decide))

/-- Claim C10: a tool-path override that names no existing file is ignored
and resolution falls back to the system lookup of the default tool name; the
run stops at the resolution stage with code 2 and an empty effect trace
exactly when one of those lookups fails. -/
theorem c10_override_fallback (args : Args) (env : Env) (p₁ p₂ : String)
    (hm : args.ffmpeg = some p₁) (hm2 : env.isfile p₁ = false)
    (hq : args.ffprobe = some p₂) (hq2 : env.isfile p₂ = false) :
    which_or env.isfile env.whichLookup args.ffmpeg "ffmpeg" =
        env.whichLookup "ffmpeg" ∧
      which_or env.isfile env.whichLookup args.ffprobe "ffprobe" =
        env.whichLookup "ffprobe" ∧
      (((mainRun args env).exitCode = EXIT_TOOLS ∧
          (mainRun args env).events = []) ↔
        (env.whichLookup "ffmpeg" = none ∨ env.whichLookup "ffprobe" = none)) := by
  have w1 : which_or env.isfile env.whichLookup args.ffmpeg "ffmpeg" =
      env.whichLookup "ffmpeg" := by
    rw [hm]
    simp [which_or, hm2]
  have w2 : which_or env.isfile env.whichLookup args.ffprobe "ffprobe" =
      env.whichLookup "ffprobe" := by
    rw [hq]
    simp [which_or, hq2]
  refine ⟨w1, w2, ?_⟩
  rcases e1 : env.whichLookup "ffmpeg" with _ | fb
  · constructor
    · intro _
      exact Or.inl rfl
    · intro _
      unfold mainRun
      rw [w1, e1]
      exact ⟨rfl, rfl⟩
  · rcases e2 : env.whichLookup "ffprobe" with _ | pb
    · constructor
      · intro _
        exact Or.inr rfl
      · intro _
        unfold mainRun
        rw [w1, e1, w2, e2]
        exact ⟨rfl, rfl⟩
    · constructor
      · rintro ⟨hc, hev⟩
        exfalso
        have hm' : which_or env.isfile env.whichLookup args.ffmpeg "ffmpeg" =
            some fb := by rw [w1, e1]
        have hp' : which_or env.isfile env.whichLookup args.ffprobe "ffprobe" =
            some pb := by rw [w2, e2]
        rw [mainRun_some_some hm' hp'] at hc hev
        by_cases hin : env.isfile args.input
        · rw [if_neg (by simp [hin])] at hc hev
          by_cases hovr : (args.no_overwrite && env.pathExists args.output) = true
          · rw [if_pos hovr] at hc
            simp [EXIT_ARGS, EXIT_TOOLS] at hc
          · rw [if_neg hovr] at hev
            rcases hpr : ffprobe_streams env.probe with e | streams
            · rw [hpr] at hev
              simp at hev
            · rw [hpr] at hev
              exact gateStage_events_ne args env fb streams hev
        · rw [if_pos (by simp [hin])] at hc
          simp [EXIT_ARGS, EXIT_TOOLS] at hc
      · rintro (h | h)
        · exact absurd h (Option.some_ne_none fb)
        · exact absurd h (Option.some_ne_none pb)

/-- Witness for C10: both overrides name missing files and the system lookup
finds nothing, so the run stops at resolution with code 2. -/
theorem c10_override_fallback_witness :
    which_or cEnvNoTools.isfile cEnvNoTools.whichLookup cArgsOverride.ffmpeg
        "ffmpeg" = cEnvNoTools.whichLookup "ffmpeg" ∧
      which_or cEnvNoTools.isfile cEnvNoTools.whichLookup cArgsOverride.ffprobe
        "ffprobe" = cEnvNoTools.whichLookup "ffprobe" ∧
      (((mainRun cArgsOverride cEnvNoTools).exitCode = EXIT_TOOLS ∧
          (mainRun cArgsOverride cEnvNoTools).events = []) ↔
        (cEnvNoTools.whichLookup "ffmpeg" = none ∨
          cEnvNoTools.whichLookup "ffprobe" = none)) :=
  c10_override_fallback cArgsOverride cEnvNoTools "/bad/ffmpeg" "/bad/ffprobe"
    (by rfl) (by decide) (by rfl) (by decide)

/-- Every effect of every run that writes the destination path writes a path
carrying the container extension. -/
theorem all_destExtOk (args : Args) (env : Env) :
    ((mainRun args env).events.all destExtOk) = true := by
  rcases hf : which_or env.isfile env.whichLookup args.ffmpeg "ffmpeg" with _ | fb
  · unfold mainRun
    rw [hf]
    rfl
  · rcases hp : which_or env.isfile env.whichLookup args.ffprobe "ffprobe"
      with _ | pb
    · unfold mainRun
      rw [hf, hp]
      rfl
    · rw [mainRun_some_some hf hp]
      by_cases hin : env.isfile args.input
      · rw [if_neg (by simp [hin])]
        by_cases hovr : (args.no_overwrite && env.pathExists args.output) = true
        · rw [if_pos hovr]
          rfl
        · rw [if_neg hovr]
          rcases hpr : ffprobe_streams env.probe with e | streams
          · rfl
          · unfold gateStage
            split
            · rfl
            · split
              · rfl
              · split
                · simp [destExtOk]
                · by_cases hrc : env.engineReturncode = 0 <;>
                    by_cases hex : env.pathExists (normalizeOut args.output) =
                      true <;>
                      simp [destExtOk, hrc, hex, build_ffmpeg_cmd,
                        normalizeOut_mov]
      · rw [if_pos (by simp [hin])]
        rfl

/-- Claim C7: the command builder normalizes the destination name to carry
the `.mov` extension when it is missing case-insensitively, the builder's
returned output path is exactly that normalization, and every
destination-writing effect of every run uses a path carrying the
extension. -/
theorem c7_extension_normalization :
    (∀ o : String, strEndsWith (strLower (normalizeOut o)) ".mov" = true) ∧
      (∀ fb infile outfile : String, ∀ threads : Option Int,
        ∀ movflags : Option String,
        (build_ffmpeg_cmd fb infile outfile threads movflags).2 =
          normalizeOut outfile) ∧
      (∀ args env, ((mainRun args env).events.all destExtOk) = true) :=
  ⟨normalizeOut_mov, fun _ _ _ _ _ => rfl, all_destExtOk⟩

end Aac2Alac
